import Mathlib

/-!
# PC-Builder: verification of the Assembly Step Validator & Snap Engine

Shallow embedding of the interaction/validation core of `src/testwindow.cpp`
(class `TestWindow`): the snap engine `snapLocation`, the answer handler
`receiveAnswer`, the drag initiation `mousePressEvent` and the drop handler
`dropEvent`, together with theorems settling the specification claims.

Machine integers are modelled as `Int` (C++ `int` coordinates); the C++
expression `cursor.x() - .5 * lastSize.width()` is computed exactly in
`double` and converted to `int` by truncation toward zero, which is
`Int.tdiv (2 * x - w) 2`.  The progress-bar value `(int)(progress * 100.0)`
with `progress = s / 6.0` is likewise truncation toward zero of `s * 100 / 6`
(exact for the magnitudes that occur), i.e. `Int.tdiv (s * 100) 6`.
-/

namespace PCBuilder

/-- A point with integer coordinates (QPoint). -/
structure Pt where
  x : Int
  y : Int
deriving DecidableEq, Repr

/-- A size with integer width/height (QSize). -/
structure Sz where
  w : Int
  h : Int
deriving DecidableEq, Repr

/-- The mutable fields of `TestWindow` that the validation core reads and
writes: `lastSize`, `lastName`, `location`, `dontMove`, `reset`, plus the
progress-bar value and the progress label (the UI state the answer handler
drives).  The progress bar starts at 0 and the label hidden (the constructor
calls `ui->progressLabel->hide()`). -/
structure TWState where
  lastSize : Sz
  lastName : String
  location : Pt
  dontMove : List String
  reset : Bool
  progressBarValue : Int
  progressLabelVisible : Bool
  progressLabelText : String
deriving DecidableEq, Repr

/-- Initial `TestWindow` state as set up by the constructor
(`lastSize = (0,0)`, `lastName = "none"`, `location = (0,0)`,
`dontMove = {"caseLabel", "centralwidget"}`, `reset = false`). -/
def twInit : TWState :=
  { lastSize := ⟨0, 0⟩
  , lastName := "none"
  , location := ⟨0, 0⟩
  , dontMove := ["caseLabel", "centralwidget"]
  , reset := false
  , progressBarValue := 0
  , progressLabelVisible := false
  , progressLabelText := "" }

/-- The cursor-follow fallback point of `snapLocation` (line 289):
`QPoint(cursor.x() - .5 * lastSize.width(), cursor.y() - .5 * lastSize.height())`,
double arithmetic truncated toward zero on conversion to `int`. -/
def newDropPoint (cursor : Pt) (sz : Sz) : Pt :=
  ⟨Int.tdiv (2 * cursor.x - sz.w) 2, Int.tdiv (2 * cursor.y - sz.h) 2⟩

/-- Embedding of `TestWindow::snapLocation` (src/testwindow.cpp, lines
286-335).  `step` is the value returned by `emit getCurrentStep()`; the
switch's literal coordinate ranges and canonical points are transcribed
verbatim.  The `case 2..6` branches `CPU` and `GPU` assign `newDrop` and fall
through to the final `return newDrop`, which is the same as returning their
canonical point directly. -/
def snapLocationTW (st : TWState) (step : Int) (cursor : Pt) : Pt :=
  let newDrop := newDropPoint cursor st.lastSize
  if step = 1 then
    if 150 ≤ cursor.x ∧ cursor.x ≤ 450 ∧ 290 ≤ cursor.y ∧ cursor.y ≤ 590 then
      ⟨200, 245⟩
    else newDrop
  else if step = 2 ∨ step = 3 ∨ step = 4 ∨ step = 5 ∨ step = 6 then
    if 315 ≤ cursor.x ∧ cursor.x ≤ 395 ∧ 295 ≤ cursor.y ∧ cursor.y ≤ 375 then
      ⟨315, 295⟩
    else if 260 ≤ cursor.x ∧ cursor.x ≤ 350 ∧ 370 ≤ cursor.y ∧ cursor.y ≤ 420 then
      ⟨260, 370⟩
    else if 300 ≤ cursor.x ∧ cursor.x ≤ 350 ∧ 430 ≤ cursor.y ∧ cursor.y ≤ 550 then
      ⟨200, 370⟩
    else if 420 ≤ cursor.x ∧ cursor.x ≤ 440 ∧ 280 ≤ cursor.y ∧ cursor.y ≤ 410 then
      ⟨423, 270⟩
    else if 440 ≤ cursor.x ∧ cursor.x ≤ 460 ∧ 280 ≤ cursor.y ∧ cursor.y ≤ 410 then
      ⟨443, 270⟩
    else newDrop
  else newDrop

/-- A snap zone of the zone catalog: closed rectangle plus canonical point. -/
structure Zone where
  xmin : Int
  xmax : Int
  ymin : Int
  ymax : Int
  target : Pt
deriving DecidableEq, Repr

/-- Boundary-inclusive (closed-interval) rectangle containment. -/
def Zone.contains (z : Zone) (p : Pt) : Prop :=
  z.xmin ≤ p.x ∧ p.x ≤ z.xmax ∧ z.ymin ≤ p.y ∧ p.y ≤ z.ymax

instance (z : Zone) (p : Pt) : Decidable (z.contains p) := by
  unfold Zone.contains; exact inferInstance

/-- Motherboard zone, active at step 1. -/
def motherboardZone : Zone := ⟨150, 450, 290, 590, ⟨200, 245⟩⟩

/-- CPU zone, active at steps 2..6. -/
def cpuZone : Zone := ⟨315, 395, 295, 375, ⟨315, 295⟩⟩

/-- Memory zone, active at steps 2..6. -/
def memoryZone : Zone := ⟨260, 350, 370, 420, ⟨260, 370⟩⟩

/-- GPU zone, active at steps 2..6. -/
def gpuZone : Zone := ⟨300, 350, 430, 550, ⟨200, 370⟩⟩

/-- First RAM zone, active at steps 2..6. -/
def ram1Zone : Zone := ⟨420, 440, 280, 410, ⟨423, 270⟩⟩

/-- Second RAM zone, active at steps 2..6. -/
def ram2Zone : Zone := ⟨440, 460, 280, 410, ⟨443, 270⟩⟩

/-- The zones active at a given step, in the declaration order of the
branches of `snapLocation`'s switch. -/
def stageZones (step : Int) : List Zone :=
  if step = 1 then [motherboardZone]
  else if 2 ≤ step ∧ step ≤ 6 then
    [cpuZone, memoryZone, gpuZone, ram1Zone, ram2Zone]
  else []

/-- First zone of the list containing the point, if any. -/
def firstHit : List Zone → Pt → Option Zone
  | [], _ => none
  | z :: zs, p => if z.contains p then some z else firstHit zs p

/-- Observable side effects of one `receiveAnswer` call: which sound was
played, whether `completedTesting` was emitted (which opens the win window),
and the modal info box opened (title, reason), if any. -/
structure Outputs where
  winSound : Bool
  goodSound : Bool
  badSound : Bool
  completedEmitted : Bool
  dialog : Option (String × String)
deriving DecidableEq, Repr

/-- Lines 355-358 of `receiveAnswer`: after the final `setValue`, show the
"Nice Job!" label when the progress bar reads 100. -/
def labelNice (st : TWState) : TWState :=
  if st.progressBarValue = 100 then
    { st with progressLabelVisible := true, progressLabelText := "Nice Job!" }
  else st

/-- Lines 374-381 of `receiveAnswer`: after `setValue`, show "Almost There!"
when the progress bar reads at least 50, otherwise hide the label. -/
def labelAlmost (st : TWState) : TWState :=
  if 50 ≤ st.progressBarValue then
    { st with progressLabelVisible := true, progressLabelText := "Almost There!" }
  else { st with progressLabelVisible := false }

/-- Embedding of `TestWindow::receiveAnswer` (src/testwindow.cpp, lines
337-404).  `currentStep` is the value `emit getCurrentStep()` returns; the
local `int step = getCurrentStep() - 1`.  `ui->progressBar->setValue` stores
the truncated integer `(int)(progress * 100.0)`, i.e.
`Int.tdiv (step * 100) 6` (in the completion branch `progress = step / 6.0`
and in the ordinary branch `progress = (step - 1) / 6.0` after `step++`,
which is the same `getCurrentStep() - 1`); the subsequent reads
`value() == 100` / `value() >= 50` read that stored value back. -/
def receiveAnswer (currentStep : Int) (correctness : Bool) (reason part : String)
    (newLocation : Pt) (st : TWState) : TWState × Outputs :=
  if currentStep - 1 = 6 ∧ correctness = true then
    (labelNice { st with location := newLocation, dontMove := st.dontMove ++ [part], progressBarValue := Int.tdiv ((currentStep - 1) * 100) 6 },
     ⟨true, false, false, true, none⟩)
  else if correctness = true then
    (labelAlmost { st with location := newLocation, dontMove := st.dontMove ++ [part], progressBarValue := Int.tdiv ((currentStep - 1) * 100) 6 },
     ⟨false, true, false, false, some ("Correct", reason)⟩)
  else
    ({ st with reset := true }, ⟨false, false, true, false, some ("Incorrect", reason)⟩)

/-- A draggable child label as seen by `mousePressEvent`: its object name,
display size and current position. -/
structure Child where
  name : String
  size : Sz
  pos : Pt
deriving DecidableEq, Repr

/-- Embedding of the state-relevant part of `TestWindow::mousePressEvent`
(src/testwindow.cpp, lines 247-284).  `child?` is `childAt(event->pos())`
(`none` when no child is under the cursor).  Returns the updated state and
whether a drag was started.  When the child is absent or its object name is
in `dontMove`, the handler returns immediately and no state changes. -/
def mousePressEvent (st : TWState) (child? : Option Child) : TWState × Bool :=
  match child? with
  | none => (st, false)
  | some child =>
    if child.name ∈ st.dontMove then (st, false)
    else
      ({ st with lastSize := child.size, lastName := child.name, location := child.pos },
       true)

/-- The answer tuple the checker sends back through `sendAnswer`. -/
structure Answer where
  correctness : Bool
  reason : String
  part : String
  newLocation : Pt
deriving DecidableEq, Repr

/-- Embedding of the state-relevant part of `TestWindow::dropEvent`
(src/testwindow.cpp, lines 204-245).  The handler places the dropped icon at
`snapLocation(cursor)`, emits `checkAnswer` — which synchronously runs the
checker and then `receiveAnswer` (all connections are direct, same thread) —
and finally, if `reset` was set, moves the icon back to `location` and clears
`reset`.  The checker's reply is passed in as `ans`; `currentStep` is what
`getCurrentStep()` returns during this drop.  Returns the final state, the
outputs of `receiveAnswer`, and the final position of the dropped icon. -/
def dropEvent (st : TWState) (currentStep : Int) (cursor : Pt) (ans : Answer) :
    TWState × Outputs × Pt :=
  let newLocal := snapLocationTW st currentStep cursor
  let (st', out) := receiveAnswer currentStep ans.correctness ans.reason ans.part
    ans.newLocation st
  if st'.reset = true then ({ st' with reset := false }, out, st'.location)
  else (st', out, newLocal)

/-- Modelled from the spec: the step counter of `TestChecker`
(`testchecker.cpp` is not among the provided sources; only its signals
`sendCurrentStep`/`sendAnswer` and this window's use of them are).  Per
§4.3 of the spec the stage counter starts at 1, increments by one unit on
each correct placement (before the answer is emitted, since the final
correct placement is observed by `receiveAnswer` with
`getCurrentStep() - 1 == 6`), and no transition leaves the terminal state,
so it never passes 7. -/
def checkerNextStep (step : Int) (correctness : Bool) : Int :=
  if correctness = true then min (step + 1) 7 else step

/-- Combined state of the window and the (spec-modelled) checker. -/
structure SysState where
  tw : TWState
  checkerStep : Int
deriving DecidableEq, Repr

/-- Initial combined state: fresh window, checker at stage 1. -/
def sysInit : SysState := ⟨twInit, 1⟩

/-- One placement result processed end to end: the checker judges
(advancing its step on a correct placement) and `receiveAnswer` consumes the
answer, querying `getCurrentStep()` after that advance. -/
def sysStep (s : SysState) (a : Answer) : SysState × Outputs :=
  let newStep := checkerNextStep s.checkerStep a.correctness
  let (tw', out) := receiveAnswer newStep a.correctness a.reason a.part
    a.newLocation s.tw
  (⟨tw', newStep⟩, out)

/-- The combined state after a sequence of placement results. -/
def sysRun (events : List Answer) : SysState :=
  events.foldl (fun s a => (sysStep s a).1) sysInit

/-- The progress-bar value determined by the checker step: 0 at step 1,
`(k * 100) / 6` after `k` correct placements. -/
def barOf (step : Int) : Int := Int.tdiv (min (step - 1) 6 * 100) 6

/-- Reachability invariant of the combined system: the checker step stays in
`[1, 7]` and the progress-bar value is determined by it. -/
def SysInv (s : SysState) : Prop :=
  1 ≤ s.checkerStep ∧ s.checkerStep ≤ 7 ∧ s.tw.progressBarValue = barOf s.checkerStep

/-- `snapLocation` is first-match search over the active zones, with the
cursor-follow fallback when no zone contains the cursor. -/
theorem snapLocationTW_eq_firstHit (st : TWState) (step : Int) (cursor : Pt) :
    snapLocationTW st step cursor =
      (match firstHit (stageZones step) cursor with
       | some z => z.target
       | none => newDropPoint cursor st.lastSize) := by
  unfold snapLocationTW stageZones
  by_cases h1 : step = 1
  · simp only [h1, if_pos rfl, if_true]
    by_cases hm : motherboardZone.contains cursor
    · have hm' := hm
      unfold Zone.contains motherboardZone at hm'
      simp only [firstHit, if_pos hm]
      simp only [if_pos hm']
      rfl
    · have hm' := hm
      unfold Zone.contains motherboardZone at hm'
      simp only [firstHit, if_neg hm]
      simp only [if_neg hm']
  · by_cases h26 : step = 2 ∨ step = 3 ∨ step = 4 ∨ step = 5 ∨ step = 6
    · have hb : 2 ≤ step ∧ step ≤ 6 := by omega
      simp only [if_neg h1, if_pos h26, if_pos hb]
      by_cases hc : cpuZone.contains cursor
      · have hc' := hc; unfold Zone.contains cpuZone at hc'
        simp only [firstHit, if_pos hc, if_pos hc']
        rfl
      · have hc' := hc; unfold Zone.contains cpuZone at hc'
        simp only [firstHit, if_neg hc, if_neg hc']
        by_cases hmem : memoryZone.contains cursor
        · have h' := hmem; unfold Zone.contains memoryZone at h'
          simp only [firstHit, if_pos hmem, if_pos h']
          rfl
        · have h' := hmem; unfold Zone.contains memoryZone at h'
          simp only [firstHit, if_neg hmem, if_neg h']
          by_cases hg : gpuZone.contains cursor
          · have h'' := hg; unfold Zone.contains gpuZone at h''
            simp only [firstHit, if_pos hg, if_pos h'']
            rfl
          · have h'' := hg; unfold Zone.contains gpuZone at h''
            simp only [firstHit, if_neg hg, if_neg h'']
            by_cases hr1 : ram1Zone.contains cursor
            · have h3 := hr1; unfold Zone.contains ram1Zone at h3
              simp only [firstHit, if_pos hr1, if_pos h3]
              rfl
            · have h3 := hr1; unfold Zone.contains ram1Zone at h3
              simp only [firstHit, if_neg hr1, if_neg h3]
              by_cases hr2 : ram2Zone.contains cursor
              · have h4 := hr2; unfold Zone.contains ram2Zone at h4
                simp only [firstHit, if_pos hr2, if_pos h4]
                rfl
              · have h4 := hr2; unfold Zone.contains ram2Zone at h4
                simp only [firstHit, if_neg hr2, if_neg h4]
    · have hb : ¬ (2 ≤ step ∧ step ≤ 6) := by omega
      simp only [if_neg h1, if_neg h26, if_neg hb, firstHit]

/-- If no zone of the list contains the point, first-match search fails. -/
theorem firstHit_eq_none (zs : List Zone) (p : Pt)
    (h : ∀ z ∈ zs, ¬ z.contains p) : firstHit zs p = none := by
  induction zs with
  | nil => rfl
  | cons z zs ih =>
    unfold firstHit
    rw [if_neg (h z (List.mem_cons_self z zs))]
    exact ih fun w hw => h w (List.mem_cons_of_mem z hw)

/-- If some zone of the list contains the point, first-match search returns
a containing zone. -/
theorem firstHit_eq_some (zs : List Zone) (p : Pt)
    (h : ∃ z ∈ zs, z.contains p) :
    ∃ z, firstHit zs p = some z ∧ z.contains p := by
  induction zs with
  | nil => obtain ⟨z, hz, _⟩ := h; cases hz
  | cons z zs ih =>
    by_cases hz : z.contains p
    · exact ⟨z, by unfold firstHit; rw [if_pos hz], hz⟩
    · obtain ⟨w, hw, hwc⟩ := h
      rcases List.mem_cons.mp hw with rfl | hw'
      · exact absurd hwc hz
      · obtain ⟨u, hu, huc⟩ := ih ⟨w, hw', hwc⟩
        exact ⟨u, by unfold firstHit; rw [if_neg hz]; exact hu, huc⟩

/-- First-match search returns the zone at index `i` when it contains the
point and no earlier zone does. -/
theorem firstHit_eq_get (zs : List Zone) (p : Pt) (i : Nat) (hi : i < zs.length)
    (hin : (zs.get ⟨i, hi⟩).contains p)
    (hearlier : ∀ z ∈ zs.take i, ¬ z.contains p) :
    firstHit zs p = some (zs.get ⟨i, hi⟩) := by
  induction zs generalizing i with
  | nil => exact absurd hi (by simp)
  | cons z zs ih =>
    cases i with
    | zero =>
      have hz : z.contains p := hin
      show (if z.contains p then some z else firstHit zs p) = some z
      rw [if_pos hz]
    | succ j =>
      have hz : ¬ z.contains p := by
        apply hearlier
        simp [List.take_succ_cons]
      have hj : j < zs.length := by simpa using hi
      have hin' : (zs.get ⟨j, hj⟩).contains p := hin
      show (if z.contains p then some z else firstHit zs p) = some (zs.get ⟨j, hj⟩)
      rw [if_neg hz]
      exact ih j hj hin'
        (fun w hw => hearlier w (by simp only [List.take_succ_cons, List.mem_cons]; exact Or.inr hw))

/-- The progress-bar value written by `receiveAnswer`: unchanged on an
incorrect placement, `(step * 100) / 6` (with `step = getCurrentStep() - 1`,
equal to 100 in the completion branch) on a correct one. -/
theorem labelNice_bar (st : TWState) :
    (labelNice st).progressBarValue = st.progressBarValue := by
  unfold labelNice; split_ifs <;> rfl

/-- `labelAlmost` does not change the progress-bar value. -/
theorem labelAlmost_bar (st : TWState) :
    (labelAlmost st).progressBarValue = st.progressBarValue := by
  unfold labelAlmost; split_ifs <;> rfl

/-- `labelNice` does not change the locked set. -/
theorem labelNice_dontMove (st : TWState) :
    (labelNice st).dontMove = st.dontMove := by
  unfold labelNice; split_ifs <;> rfl

/-- `labelAlmost` does not change the locked set. -/
theorem labelAlmost_dontMove (st : TWState) :
    (labelAlmost st).dontMove = st.dontMove := by
  unfold labelAlmost; split_ifs <;> rfl

/-- The progress-bar value written by `receiveAnswer`: unchanged on an
incorrect placement, `(step * 100) / 6` (with `step = getCurrentStep() - 1`,
equal to 100 in the completion branch) on a correct one. -/
theorem receiveAnswer_bar (cs : Int) (corr : Bool) (r p : String) (loc : Pt)
    (st : TWState) :
    ((receiveAnswer cs corr r p loc st).1).progressBarValue =
      (if corr = true then Int.tdiv ((cs - 1) * 100) 6
       else st.progressBarValue) := by
  unfold receiveAnswer
  by_cases hc : corr = true
  · conv_rhs => rw [if_pos hc]
    by_cases h6 : cs - 1 = 6
    · rw [if_pos ⟨h6, hc⟩]
      exact labelNice_bar _
    · rw [if_neg (by tauto), if_pos hc]
      exact labelAlmost_bar _
  · conv_rhs => rw [if_neg hc]
    rw [if_neg (by tauto), if_neg hc]

/-- `receiveAnswer` leaves the locked set unchanged on an incorrect
placement and appends the part on a correct one. -/
theorem receiveAnswer_dontMove (cs : Int) (corr : Bool) (r p : String)
    (loc : Pt) (st : TWState) :
    ((receiveAnswer cs corr r p loc st).1).dontMove =
      (if corr = true then st.dontMove ++ [p] else st.dontMove) := by
  unfold receiveAnswer
  by_cases hc : corr = true
  · conv_rhs => rw [if_pos hc]
    by_cases h6 : cs - 1 = 6
    · rw [if_pos ⟨h6, hc⟩]
      exact labelNice_dontMove _
    · rw [if_neg (by tauto), if_pos hc]
      exact labelAlmost_dontMove _
  · conv_rhs => rw [if_neg hc]
    rw [if_neg (by tauto), if_neg hc]

/-- The initial combined state satisfies the invariant. -/
theorem sysInit_inv : SysInv sysInit := by
  refine ⟨by decide, by decide, ?_⟩
  decide

/-- One system step preserves the invariant. -/
theorem sysStep_inv (s : SysState) (a : Answer) (h : SysInv s) :
    SysInv (sysStep s a).1 := by
  obtain ⟨h1, h7, hbar⟩ := h
  have hstep : (sysStep s a).1.checkerStep = checkerNextStep s.checkerStep a.correctness := rfl
  have hbar' : (sysStep s a).1.tw.progressBarValue =
      (if a.correctness = true
       then Int.tdiv ((checkerNextStep s.checkerStep a.correctness - 1) * 100) 6
       else s.tw.progressBarValue) := by
    have := receiveAnswer_bar (checkerNextStep s.checkerStep a.correctness)
      a.correctness a.reason a.part a.newLocation s.tw
    exact this
  by_cases hc : a.correctness = true
  · have hmin : checkerNextStep s.checkerStep a.correctness = min (s.checkerStep + 1) 7 := by
      unfold checkerNextStep; rw [if_pos hc]
    refine ⟨?_, ?_, ?_⟩
    · rw [hstep, hmin]; exact le_min (by omega) (by omega)
    · rw [hstep, hmin]; exact min_le_right _ _
    · rw [hstep, hbar', if_pos hc, hmin]
      unfold barOf
      have hle : min (s.checkerStep + 1) 7 - 1 ≤ 6 := by
        have := min_le_right (s.checkerStep + 1) 7; omega
      rw [min_eq_left hle]
  · have hmin : checkerNextStep s.checkerStep a.correctness = s.checkerStep := by
      unfold checkerNextStep; rw [if_neg hc]
    refine ⟨by rw [hstep, hmin]; exact h1, by rw [hstep, hmin]; exact h7, ?_⟩
    rw [hstep, hmin, hbar', if_neg hc, hbar]

/-- The invariant holds in every reachable combined state. -/
theorem sysRun_inv (events : List Answer) : SysInv (sysRun events) := by
  suffices h : ∀ (evs : List Answer) (s : SysState), SysInv s →
      SysInv (evs.foldl (fun s a => (sysStep s a).1) s) by
    exact h events sysInit sysInit_inv
  intro evs
  induction evs with
  | nil => intro s hs; exact hs
  | cons a evs ih =>
    intro s hs
    exact ih _ (sysStep_inv s a hs)

/-- `barOf` never exceeds 100 on the reachable step range. -/
theorem barOf_le_100 (n : Int) (h1 : 1 ≤ n) (h7 : n ≤ 7) : barOf n ≤ 100 := by
  unfold barOf
  interval_cases n <;> decide

/-- `barOf` is monotone on the reachable step range. -/
theorem barOf_mono (m n : Int) (hm1 : 1 ≤ m) (hn7 : n ≤ 7) (hmn : m ≤ n) :
    barOf m ≤ barOf n := by
  unfold barOf
  have hm7 : m ≤ 7 := le_trans hmn hn7
  have hn1 : 1 ≤ n := le_trans hm1 hmn
  interval_cases m <;> interval_cases n <;> decide

/-- C1 counterexample: the claim as stated fails where active zones overlap.
At stage 2 the cursor (320, 372) lies inside the Memory zone's rectangle
[260,350]x[370,420], yet `snapLocation` returns the CPU canonical point
(315, 295) — the CPU branch of the else-if chain fires first — and not the
Memory canonical point (260, 370). -/
theorem snap_canonical_point_counterexample :
    memoryZone ∈ stageZones 2 ∧ memoryZone.contains ⟨320, 372⟩ ∧
    snapLocationTW twInit 2 ⟨320, 372⟩ = ⟨315, 295⟩ ∧
    memoryZone.target = ⟨260, 370⟩ ∧ (⟨315, 295⟩ : Pt) ≠ ⟨260, 370⟩ := by
  decide

/-- C1 (amended): snap canonical-point correctness with boundary-inclusive
containment: for every stage, every zone active at that stage, and every
cursor point inside that zone's closed rectangle that lies in no
earlier-declared active zone, `snapLocation` returns exactly that zone's
fixed canonical point, independent of where inside the rectangle the cursor
was and independent of the dragged component's size (and of all other
window state). -/
theorem snap_canonical_point (st : TWState) (step : Int) (cursor : Pt)
    (i : Nat) (hi : i < (stageZones step).length)
    (hin : ((stageZones step).get ⟨i, hi⟩).contains cursor)
    (hearlier : ∀ z ∈ (stageZones step).take i, ¬ z.contains cursor) :
    snapLocationTW st step cursor = ((stageZones step).get ⟨i, hi⟩).target := by
  rw [snapLocationTW_eq_firstHit,
    firstHit_eq_get (stageZones step) cursor i hi hin hearlier]

/-- Witness for C1 (amended): at stage 2 the cursor (270, 400) is inside the
Memory zone (index 1) and outside the earlier CPU zone, and snaps to the
Memory canonical point (260, 370). -/
theorem snap_canonical_point_witness :
    memoryZone.contains ⟨270, 400⟩ ∧
    snapLocationTW twInit 2 ⟨270, 400⟩ = ⟨260, 370⟩ := by
  refine ⟨by decide, ?_⟩
  exact snap_canonical_point twInit 2 ⟨270, 400⟩ 1 (by decide) (by decide) (by decide)

/-- C6: stage gating of snap zones.  At step 1, `snapLocation` returns
either the motherboard canonical point (200, 245) (exactly when the cursor
is inside the motherboard rectangle) or the cursor-follow fallback — no
stage-2..6 zone snap can fire.  At steps 2..6, a cursor inside the
motherboard rectangle but outside all of the CPU/Memory/GPU/RAM rectangles
yields the cursor-follow fallback — the motherboard zone snap has no effect
at those steps. -/
theorem snap_stage_gating (st : TWState) (cursor : Pt) :
    (snapLocationTW st 1 cursor =
      (if motherboardZone.contains cursor then motherboardZone.target
       else newDropPoint cursor st.lastSize)) ∧
    (∀ step : Int, 2 ≤ step → step ≤ 6 → motherboardZone.contains cursor →
      (∀ z ∈ stageZones step, ¬ z.contains cursor) →
      snapLocationTW st step cursor = newDropPoint cursor st.lastSize) := by
  constructor
  · rw [snapLocationTW_eq_firstHit]
    by_cases hm : motherboardZone.contains cursor
    · rw [if_pos hm]
      have h : firstHit (stageZones 1) cursor = some motherboardZone := by
        show (if motherboardZone.contains cursor then some motherboardZone
              else firstHit [] cursor) = some motherboardZone
        rw [if_pos hm]
      rw [h]
    · rw [if_neg hm]
      have h : firstHit (stageZones 1) cursor = none := by
        show (if motherboardZone.contains cursor then some motherboardZone
              else firstHit [] cursor) = none
        rw [if_neg hm]
        rfl
      rw [h]
  · intro step h2 h6 _ hz
    rw [snapLocationTW_eq_firstHit, firstHit_eq_none _ _ hz]

/-- Witness for C6: with dragged size (0, 0), the cursor (200, 500) is
inside the motherboard rectangle; at step 1 it snaps to (200, 245), while at
step 2 (where it is outside all five active zones) it gets the cursor-follow
fallback. -/
theorem snap_stage_gating_witness :
    snapLocationTW twInit 1 ⟨200, 500⟩ = ⟨200, 245⟩ ∧
    snapLocationTW twInit 2 ⟨200, 500⟩ = newDropPoint ⟨200, 500⟩ twInit.lastSize := by
  constructor
  · have h := (snap_stage_gating twInit ⟨200, 500⟩).1
    rw [if_pos (by decide)] at h
    exact h
  · exact (snap_stage_gating twInit ⟨200, 500⟩).2 2 (by decide) (by decide)
      (by decide) (by decide)

/-- C7: cursor-follow fallback.  For every cursor point contained in no zone
active at the current step, `snapLocation` returns the point that centers
the dragged component under the cursor using its last recorded size:
`(cursor.x - width/2, cursor.y - height/2)` computed in `double` and
truncated, i.e. `newDropPoint`. -/
theorem snap_cursor_follow (st : TWState) (step : Int) (cursor : Pt)
    (h : ∀ z ∈ stageZones step, ¬ z.contains cursor) :
    snapLocationTW st step cursor = newDropPoint cursor st.lastSize := by
  rw [snapLocationTW_eq_firstHit, firstHit_eq_none _ _ h]

/-- Witness for C7: at step 3 the cursor (700, 50) is in no active zone and
with dragged size (80, 60) the result is (700 - 40, 50 - 30) = (660, 20). -/
theorem snap_cursor_follow_witness :
    firstHit (stageZones 3) ⟨700, 50⟩ = none ∧
    snapLocationTW { twInit with lastSize := ⟨80, 60⟩ } 3 ⟨700, 50⟩ = ⟨660, 20⟩ := by
  refine ⟨by decide, ?_⟩
  rw [snap_cursor_follow { twInit with lastSize := ⟨80, 60⟩ } 3 ⟨700, 50⟩ (by decide)]
  decide

/-- C8: overlap tie-break by declaration order.  When a cursor point lies
inside more than one zone active at the current step (steps 2..6),
`snapLocation` returns the canonical point of the first matching zone in
declaration order (CPU, Memory, GPU, RAM1, RAM2) and does not fail; in
particular cursor x = 440 with 280 <= y <= 410 lies in both RAM rectangles
and yields the first RAM zone's point (423, 270), and a cursor with
315 <= x <= 350 and 370 <= y <= 375 lies in both the CPU and Memory
rectangles and yields the CPU point (315, 295). -/
theorem snap_overlap_tiebreak :
    (∀ (st : TWState) (step : Int) (cursor : Pt), 2 ≤ step → step ≤ 6 →
      (∃ z1 ∈ stageZones step, ∃ z2 ∈ stageZones step,
        z1 ≠ z2 ∧ z1.contains cursor ∧ z2.contains cursor) →
      ∃ z, firstHit (stageZones step) cursor = some z ∧ z.contains cursor ∧
        snapLocationTW st step cursor = z.target) ∧
    (∀ (st : TWState) (step y : Int), 2 ≤ step → step ≤ 6 →
      280 ≤ y → y ≤ 410 →
      (ram2Zone.contains ⟨440, y⟩ ∧ snapLocationTW st step ⟨440, y⟩ = ⟨423, 270⟩)) ∧
    (∀ (st : TWState) (step x y : Int), 2 ≤ step → step ≤ 6 →
      315 ≤ x → x ≤ 350 → 370 ≤ y → y ≤ 375 →
      (memoryZone.contains ⟨x, y⟩ ∧ snapLocationTW st step ⟨x, y⟩ = ⟨315, 295⟩)) := by
  have hsz : ∀ step : Int, 2 ≤ step → step ≤ 6 →
      stageZones step = [cpuZone, memoryZone, gpuZone, ram1Zone, ram2Zone] := by
    intro step h2 h6
    unfold stageZones
    rw [if_neg (by omega), if_pos ⟨h2, h6⟩]
  refine ⟨?_, ?_, ?_⟩
  · intro st step cursor h2 h6 hov
    obtain ⟨z1, hz1, z2, hz2, hne, hc1, hc2⟩ := hov
    obtain ⟨z, hz, hzc⟩ := firstHit_eq_some (stageZones step) cursor ⟨z1, hz1, hc1⟩
    exact ⟨z, hz, hzc, by rw [snapLocationTW_eq_firstHit, hz]⟩
  · intro st step y h2 h6 hy1 hy2
    have hr1 : ram1Zone.contains ⟨440, y⟩ := by
      show (420 : Int) ≤ 440 ∧ (440 : Int) ≤ 440 ∧ (280 : Int) ≤ y ∧ y ≤ (410 : Int)
      exact ⟨by norm_num, by norm_num, hy1, hy2⟩
    have hr2 : ram2Zone.contains ⟨440, y⟩ := by
      show (440 : Int) ≤ 440 ∧ (440 : Int) ≤ 460 ∧ (280 : Int) ≤ y ∧ y ≤ (410 : Int)
      exact ⟨by norm_num, by norm_num, hy1, hy2⟩
    refine ⟨hr2, ?_⟩
    have hfh : firstHit [cpuZone, memoryZone, gpuZone, ram1Zone, ram2Zone] ⟨440, y⟩ =
        some ram1Zone := by
      have h := firstHit_eq_get [cpuZone, memoryZone, gpuZone, ram1Zone, ram2Zone]
        ⟨440, y⟩ 3 (by decide) hr1
        (by
          intro z hz
          fin_cases hz <;> intro hc <;>
            simp [Zone.contains, cpuZone, memoryZone, gpuZone] at hc)
      exact h
    rw [snapLocationTW_eq_firstHit, hsz step h2 h6, hfh]
    rfl
  · intro st step x y h2 h6 hx1 hx2 hy1 hy2
    have hcm : memoryZone.contains ⟨x, y⟩ := by
      show (260 : Int) ≤ x ∧ x ≤ (350 : Int) ∧ (370 : Int) ≤ y ∧ y ≤ (420 : Int)
      exact ⟨by omega, hx2, hy1, by omega⟩
    have hcc : cpuZone.contains ⟨x, y⟩ := by
      show (315 : Int) ≤ x ∧ x ≤ (395 : Int) ∧ (295 : Int) ≤ y ∧ y ≤ (375 : Int)
      exact ⟨hx1, by omega, by omega, hy2⟩
    refine ⟨hcm, ?_⟩
    have hfh : firstHit [cpuZone, memoryZone, gpuZone, ram1Zone, ram2Zone] ⟨x, y⟩ =
        some cpuZone := by
      have h := firstHit_eq_get [cpuZone, memoryZone, gpuZone, ram1Zone, ram2Zone]
        ⟨x, y⟩ 0 (by decide) hcc (by intro z hz; simp at hz)
      exact h
    rw [snapLocationTW_eq_firstHit, hsz step h2 h6, hfh]
    rfl

/-- Witness for C8: at step 2 the cursor (440, 300) (inside both RAM
rectangles) snaps to the first RAM zone's point, and at step 3 the cursor
(320, 372) (inside both the CPU and Memory rectangles) snaps to the CPU
point. -/
theorem snap_overlap_tiebreak_witness :
    snapLocationTW twInit 2 ⟨440, 300⟩ = ⟨423, 270⟩ ∧
    snapLocationTW twInit 3 ⟨320, 372⟩ = ⟨315, 295⟩ :=
  ⟨(snap_overlap_tiebreak.2.1 twInit 2 300 (by decide) (by decide) (by decide)
      (by decide)).2,
   (snap_overlap_tiebreak.2.2 twInit 3 320 372 (by decide) (by decide) (by decide)
      (by decide) (by decide) (by decide)).2⟩

/-- C9 counterexample: a missed drop is NOT returned unchanged: with dragged
size (80, 80), the cursor (100, 100) lies in no zone active at step 1, and
`snapLocation` returns the centered point (60, 60), not the raw cursor
point (100, 100). -/
theorem snap_unmodified_miss_counterexample :
    firstHit (stageZones 1) ⟨100, 100⟩ = none ∧
    snapLocationTW { twInit with lastSize := ⟨80, 80⟩ } 1 ⟨100, 100⟩ = ⟨60, 60⟩ ∧
    (⟨60, 60⟩ : Pt) ≠ ⟨100, 100⟩ := by
  decide

/-- C9 (amended): when the drop point falls in no zone active at the
current step, the snap engine returns the drop point adjusted to center the
dragged component under the cursor (`newDropPoint`, using the component's
last recorded size), not the unmodified cursor point. -/
theorem snap_miss_returns_centered (st : TWState) (step : Int) (cursor : Pt)
    (h : firstHit (stageZones step) cursor = none) :
    snapLocationTW st step cursor = newDropPoint cursor st.lastSize := by
  rw [snapLocationTW_eq_firstHit, h]

/-- Witness for C9 (amended): at step 4 the cursor (600, 600) hits no zone
and with dragged size (100, 40) the result is (550, 580). -/
theorem snap_miss_returns_centered_witness :
    firstHit (stageZones 4) ⟨600, 600⟩ = none ∧
    snapLocationTW { twInit with lastSize := ⟨100, 40⟩ } 4 ⟨600, 600⟩ = ⟨550, 580⟩ := by
  refine ⟨by decide, ?_⟩
  rw [snap_miss_returns_centered { twInit with lastSize := ⟨100, 40⟩ } 4 ⟨600, 600⟩
    (by decide)]
  decide

/-- C10: snap is component-agnostic.  For any two window states with equal
last recorded drag sizes — in particular states differing only in which
component (`lastName`) is being dragged — `snapLocation` returns the same
point for the same cursor and step: the snapped position depends only on the
cursor, the step, and the size, never on the component's identity. -/
theorem snap_component_agnostic (st1 st2 : TWState) (step : Int) (cursor : Pt)
    (h : st1.lastSize = st2.lastSize) :
    snapLocationTW st1 step cursor = snapLocationTW st2 step cursor := by
  unfold snapLocationTW newDropPoint
  rw [h]

/-- Witness for C10: dragging "cpuLabel" and dragging "gpuLabel" with the
same size (80, 80) snap identically at step 5, cursor (100, 100). -/
theorem snap_component_agnostic_witness :
    ({ twInit with lastName := "cpuLabel", lastSize := ⟨80, 80⟩ } : TWState).lastSize =
      ({ twInit with lastName := "gpuLabel", lastSize := ⟨80, 80⟩ } : TWState).lastSize ∧
    snapLocationTW { twInit with lastName := "cpuLabel", lastSize := ⟨80, 80⟩ } 5 ⟨100, 100⟩ =
      snapLocationTW { twInit with lastName := "gpuLabel", lastSize := ⟨80, 80⟩ } 5 ⟨100, 100⟩ :=
  ⟨rfl, snap_component_agnostic _ _ 5 ⟨100, 100⟩ rfl⟩

/-- C2: completion exactness.  The completion outcome — the
`completedTesting` signal (which opens the win window), the win sound, the
progress bar set to 100, and the visible "Nice Job!" label — is produced by
`receiveAnswer` if and only if the placement was judged correct while
`getCurrentStep() - 1 == 6`; it fires on exactly that call and never on any
earlier correct or incorrect placement. -/
theorem completion_exactness (cs : Int) (corr : Bool) (reason part : String)
    (loc : Pt) (st : TWState) :
    ((receiveAnswer cs corr reason part loc st).2.completedEmitted = true ∧
     (receiveAnswer cs corr reason part loc st).2.winSound = true ∧
     (receiveAnswer cs corr reason part loc st).1.progressBarValue = 100 ∧
     (receiveAnswer cs corr reason part loc st).1.progressLabelVisible = true ∧
     (receiveAnswer cs corr reason part loc st).1.progressLabelText = "Nice Job!")
    ↔ (cs - 1 = 6 ∧ corr = true) := by
  unfold receiveAnswer
  by_cases h : cs - 1 = 6 ∧ corr = true
  · rw [if_pos h]
    obtain ⟨h6, hc⟩ := h
    have hbar : Int.tdiv ((cs - 1) * 100) 6 = 100 := by rw [h6]; decide
    constructor
    · intro _
      exact ⟨h6, hc⟩
    · intro _
      refine ⟨rfl, rfl, ?_, ?_, ?_⟩
      · rw [labelNice_bar]
        exact hbar
      · show (labelNice _).progressLabelVisible = true
        unfold labelNice
        rw [if_pos hbar]
      · show (labelNice _).progressLabelText = "Nice Job!"
        unfold labelNice
        rw [if_pos hbar]
  · rw [if_neg h]
    by_cases hc : corr = true
    · rw [if_pos hc]
      constructor
      · intro hout
        have hfalse : (false : Bool) = true := hout.1
        exact absurd hfalse (by decide)
      · intro hrhs
        exact absurd hrhs h
    · rw [if_neg hc]
      constructor
      · intro hout
        have hfalse : (false : Bool) = true := hout.1
        exact absurd hfalse (by decide)
      · intro hrhs
        exact absurd hrhs.2 hc

/-- C3: progress monotonicity.  Over any sequence of placement results
processed end to end (spec-modelled checker step counter plus
`receiveAnswer`): the checker step never decreases, the progress-bar value
never decreases and never exceeds 100, incorrect placements leave it
unchanged, and each correct placement sets it to `(locked count) * 100 / 6`
(the locked count being `checkerStep - 1`, capped at 6). -/
theorem progress_monotone (events : List Answer) (a : Answer) :
    (sysRun events).checkerStep ≤ ((sysStep (sysRun events) a).1).checkerStep ∧
    (sysRun events).tw.progressBarValue ≤
      ((sysStep (sysRun events) a).1).tw.progressBarValue ∧
    ((sysStep (sysRun events) a).1).tw.progressBarValue ≤ 100 ∧
    ((sysStep (sysRun events) a).1).tw.progressBarValue =
      (if a.correctness = true
       then Int.tdiv (min (((sysStep (sysRun events) a).1).checkerStep - 1) 6 * 100) 6
       else (sysRun events).tw.progressBarValue) := by
  obtain ⟨h1, h7, hbar⟩ := sysRun_inv events
  obtain ⟨h1', h7', hbar'⟩ := sysStep_inv (sysRun events) a (sysRun_inv events)
  have hstep : ((sysStep (sysRun events) a).1).checkerStep =
      checkerNextStep (sysRun events).checkerStep a.correctness := rfl
  have hle : (sysRun events).checkerStep ≤
      ((sysStep (sysRun events) a).1).checkerStep := by
    rw [hstep]
    unfold checkerNextStep
    split_ifs
    · exact le_min (by omega) h7
    · exact le_refl _
  refine ⟨hle, ?_, ?_, ?_⟩
  · rw [hbar, hbar']
    exact barOf_mono _ _ h1 h7' hle
  · rw [hbar']
    exact barOf_le_100 _ h1' h7'
  · by_cases hc : a.correctness = true
    · rw [if_pos hc, hbar']
      rfl
    · rw [if_neg hc, hbar', hbar]
      have : ((sysStep (sysRun events) a).1).checkerStep =
          (sysRun events).checkerStep := by
        rw [hstep]
        unfold checkerNextStep
        rw [if_neg hc]
      rw [this]

/-- C4: locked components are never re-evaluated.  Once a placement for a
component is judged correct, `receiveAnswer` appends its identifier to the
`dontMove` list (in both the ordinary and the completion branch), and
`mousePressEvent` refuses to begin a drag for any child whose object name is
in `dontMove`: the handler returns with the state unchanged and no drag
started, so no drop — and hence no validation — for that component can
follow. -/
theorem locked_not_reevaluated :
    (∀ (cs : Int) (reason part : String) (loc : Pt) (st : TWState),
      part ∈ ((receiveAnswer cs true reason part loc st).1).dontMove) ∧
    (∀ (st : TWState) (child : Child), child.name ∈ st.dontMove →
      mousePressEvent st (some child) = (st, false)) := by
  constructor
  · intro cs reason part loc st
    rw [receiveAnswer_dontMove]
    simp
  · intro st child h
    show (if child.name ∈ st.dontMove then (st, false)
          else ({ st with lastSize := child.size, lastName := child.name, location := child.pos }, true)) = (st, false)
    rw [if_pos h]

/-- Witness for C4: a press on the already-locked "cpuLabel" changes no
state and starts no drag, and a correct placement of "cpuLabel" puts it into
`dontMove`. -/
theorem locked_not_reevaluated_witness :
    mousePressEvent { twInit with dontMove := ["caseLabel", "centralwidget", "cpuLabel"] }
      (some ⟨"cpuLabel", ⟨80, 80⟩, ⟨600, 300⟩⟩) =
      ({ twInit with dontMove := ["caseLabel", "centralwidget", "cpuLabel"] }, false) ∧
    "cpuLabel" ∈ ((receiveAnswer 2 true "r" "cpuLabel" ⟨315, 295⟩ twInit).1).dontMove :=
  ⟨locked_not_reevaluated.2 _ ⟨"cpuLabel", ⟨80, 80⟩, ⟨600, 300⟩⟩ (by decide),
   locked_not_reevaluated.1 2 "r" "cpuLabel" ⟨315, 295⟩ twInit⟩

/-- C5: incorrect-placement atomicity and revert.  On an incorrect result
`receiveAnswer` changes nothing but the pending-revert flag (`reset := true`,
with `dontMove`, `location` and the progress bar untouched) and plays the
bad sound with an "Incorrect" info box; the drop handler then moves the
dropped icon back to the pre-drag original position saved at mouse press and
clears the flag, so the flag is consumed by exactly one revert. -/
theorem incorrect_revert (cs : Int) (reason part : String) (loc : Pt)
    (st : TWState) (child : Child) (cursor : Pt)
    (hname : child.name ∉ st.dontMove) :
    (receiveAnswer cs false reason part loc st).1 = { st with reset := true } ∧
    (receiveAnswer cs false reason part loc st).2 =
      ⟨false, false, true, false, some ("Incorrect", reason)⟩ ∧
    (dropEvent (mousePressEvent st (some child)).1 cs cursor
      ⟨false, reason, part, loc⟩).2.2 = child.pos ∧
    (dropEvent (mousePressEvent st (some child)).1 cs cursor
      ⟨false, reason, part, loc⟩).1.reset = false ∧
    (dropEvent (mousePressEvent st (some child)).1 cs cursor
      ⟨false, reason, part, loc⟩).1.dontMove = st.dontMove ∧
    (dropEvent (mousePressEvent st (some child)).1 cs cursor
      ⟨false, reason, part, loc⟩).1.progressBarValue = st.progressBarValue := by
  have hRA : ∀ (s : TWState), receiveAnswer cs false reason part loc s =
      ({ s with reset := true },
       ⟨false, false, true, false, some ("Incorrect", reason)⟩) := by
    intro s
    unfold receiveAnswer
    rw [if_neg (by simp), if_neg (by simp)]
  have hMP : (mousePressEvent st (some child)).1 =
      { st with lastSize := child.size, lastName := child.name, location := child.pos } := by
    show (if child.name ∈ st.dontMove then (st, false)
          else ({ st with lastSize := child.size, lastName := child.name, location := child.pos }, true)).1 =
      { st with lastSize := child.size, lastName := child.name, location := child.pos }
    rw [if_neg hname]
  have hDE : dropEvent { st with lastSize := child.size, lastName := child.name, location := child.pos } cs cursor ⟨false, reason, part, loc⟩ =
      ({ st with lastSize := child.size, lastName := child.name, location := child.pos, reset := false },
       ⟨false, false, true, false, some ("Incorrect", reason)⟩, child.pos) := by
    unfold dropEvent
    rw [hRA]
    rfl
  refine ⟨by rw [hRA], by rw [hRA], ?_, ?_, ?_, ?_⟩ <;> rw [hMP, hDE]

/-- Witness for C5: pressing the unlocked "cpuLabel" at position (600, 300)
and then dropping it with an incorrect answer returns the icon to
(600, 300) with the revert flag cleared. -/
theorem incorrect_revert_witness :
    ("cpuLabel" ∉ twInit.dontMove) ∧
    (dropEvent (mousePressEvent twInit (some ⟨"cpuLabel", ⟨80, 80⟩, ⟨600, 300⟩⟩)).1 2
      ⟨10, 10⟩ ⟨false, "wrong", "cpuLabel", ⟨0, 0⟩⟩).2.2 = ⟨600, 300⟩ :=
  ⟨by decide,
   (incorrect_revert 2 "wrong" "cpuLabel" ⟨0, 0⟩ twInit
     ⟨"cpuLabel", ⟨80, 80⟩, ⟨600, 300⟩⟩ ⟨10, 10⟩ (by decide)).2.2.1⟩

end PCBuilder
